import Mathlib

/-!
Verification development for the Sauce Demo Playwright page-object suite.

The repository is a browser end-to-end test harness: page objects
(LoginPage, InventoryPage, CartPage, CheckoutPage, CheckoutOverviewPage,
CheckoutCompletePage), a test-helper module (TestHelpers, TestData) and
scenario scripts.  The page objects' verification and parsing logic is pure
string/number manipulation over values read from the screen; we embed that
logic shallowly: every method is a Lean function of the values it reads
(element texts, element presence), browser effects (clicks, fills, waits)
are recorded explicitly, JavaScript numbers that can be NaN are `Option ℚ`
or `Option Int` with `none` for NaN, and a thrown/With-caught error is an
explicit constructor of the input type.
-/

/-! ## JavaScript string and number primitives used by the page objects -/

/-- Value of a list of decimal digit characters, most significant first
(the digit-accumulation loop of JS `parseInt`/`parseFloat`). -/
def digitsToNat (ds : List Char) : Nat :=
  ds.foldl (fun n c => 10 * n + (c.toNat - 48)) 0

/-- Leading-sign split shared by JS `parseInt` and `parseFloat`: an optional
single `-` or `+` before the digits. -/
def jsSignSplit : List Char → Int × List Char
  | [] => (1, [])
  | c :: rest =>
    if c = '-' then (-1, rest)
    else if c = '+' then (1, rest)
    else (1, c :: rest)

/-- JS `parseInt(s)` (radix 10): skip leading whitespace, optional sign,
read the leading run of decimal digits; `none` models the NaN result when
no digit is read. -/
def jsParseInt (s : String) : Option Int :=
  let cs := s.data.dropWhile Char.isWhitespace
  let sc := jsSignSplit cs
  let ds := sc.2.takeWhile Char.isDigit
  if ds.isEmpty then none else some (sc.1 * (digitsToNat ds : Int))

/-- JS `parseFloat(s)` on decimal notation: skip leading whitespace,
optional sign, integer digits, optional `.` and fraction digits, ignoring
any trailing garbage; `none` models the NaN result when no digit is read.
The result is an exact rational (the page objects only compare against a
0.01 tolerance, so exact rationals stand in for binary doubles). -/
def jsParseFloat (s : String) : Option ℚ :=
  let cs := s.data.dropWhile Char.isWhitespace
  let sc := jsSignSplit cs
  let ip := sc.2.takeWhile Char.isDigit
  let rest := sc.2.dropWhile Char.isDigit
  let fp := match rest with
    | '.' :: r => r.takeWhile Char.isDigit
    | _ => []
  if ip.isEmpty && fp.isEmpty then none
  else some ((sc.1 : ℚ) * ((digitsToNat ip : ℚ) + (digitsToNat fp : ℚ) / (10 : ℚ) ^ fp.length))

/-- Addition of JS numbers where `none` is NaN: NaN propagates. -/
def jsAdd : Option ℚ → Option ℚ → Option ℚ
  | some a, some b => some (a + b)
  | _, _ => none

/-- Subtraction of JS numbers where `none` is NaN: NaN propagates. -/
def jsSub : Option ℚ → Option ℚ → Option ℚ
  | some a, some b => some (a - b)
  | _, _ => none

/-- JS `Math.abs` where `none` is NaN. -/
def jsAbs : Option ℚ → Option ℚ
  | some a => some |a|
  | none => none

/-- JS `<` against a constant: every comparison with NaN is false. -/
def jsLtNum : Option ℚ → ℚ → Bool
  | some a, c => decide (a < c)
  | none, _ => false

/-- JS `s.replace(c, '')` with a one-character string pattern: remove the
first occurrence of `c`, leave the rest unchanged. -/
def removeFirstChar (c : Char) : List Char → List Char
  | [] => []
  | x :: xs => if x = c then xs else x :: removeFirstChar c xs

/-- JS `s.replace(/[^0-9.]/g, '')`: keep only digits and dots. -/
def keepDigitsAndDot (s : String) : String :=
  ⟨s.data.filter (fun c => c.isDigit || c = '.')⟩

/-- JS `s.trim()`: drop whitespace from both ends (modelled with Lean's
`Char.isWhitespace` class). -/
def jsTrim (s : String) : String :=
  ⟨((s.data.dropWhile Char.isWhitespace).reverse.dropWhile Char.isWhitespace).reverse⟩

/-- JS `s.toLowerCase()` restricted to the ASCII range the suite's item
names use (`Char.toLower` lowercases exactly `A`–`Z`). -/
def jsToLowerCase (s : String) : String :=
  ⟨s.data.map Char.toLower⟩

/-- JS `s.includes(sub)`: some tail of `s` starts with `sub`. -/
def jsIncludes (s sub : String) : Bool :=
  s.data.tails.any (fun t => sub.data.isPrefixOf t)

/-- Substring occurrence as the spec reads it: `sub` occurs contiguously
inside `s`. -/
def containsSub (s sub : String) : Prop :=
  ∃ pre post, s.data = pre ++ sub.data ++ post

lemma isPrefixOf_iff_exists {xs l : List Char} :
    xs.isPrefixOf l = true ↔ ∃ rest, l = xs ++ rest := by
  induction xs generalizing l with
  | nil => simp [List.isPrefixOf]
  | cons a as ih =>
    cases l with
    | nil => simp [List.isPrefixOf]
    | cons b bs =>
      simp only [List.isPrefixOf, Bool.and_eq_true, beq_iff_eq, ih, List.cons_append,
        List.cons.injEq]
      constructor
      · rintro ⟨rfl, rest, rfl⟩; exact ⟨rest, rfl, rfl⟩
      · rintro ⟨rest, rfl, rfl⟩; exact ⟨rfl, rest, rfl⟩

lemma jsIncludes_iff (s sub : String) : jsIncludes s sub = true ↔ containsSub s sub := by
  simp only [jsIncludes, containsSub, List.any_eq_true]
  constructor
  · rintro ⟨t, ht, hpre⟩
    obtain ⟨pre, hp⟩ := (List.mem_tails t s.data).mp ht
    obtain ⟨post, rfl⟩ := isPrefixOf_iff_exists.mp hpre
    exact ⟨pre, post, by simp [← hp]⟩
  · rintro ⟨pre, post, hs⟩
    refine ⟨sub.data ++ post, ?_, ?_⟩
    · exact (List.mem_tails _ _).mpr ⟨pre, by simp [hs]⟩
    · exact isPrefixOf_iff_exists.mpr ⟨post, rfl⟩

/-! ## CheckoutCompletePage: completion-message checks

`verifyCheckoutCompletion` reads the `.complete-header` and `.complete-text`
texts (both already trimmed and defaulted to `''` by `getCompleteHeaderText`
and `getCompleteText`); we pass those two strings as arguments. -/

/-- Source `CheckoutCompletePage.verifyCheckoutCompletion`: header must equal
the exact confirmation string and the body must include the dispatch
sentence. -/
def CheckoutCompletePage.verifyCheckoutCompletion (headerText completeText : String) : Bool :=
  headerText == "Thank you for your order!" &&
    jsIncludes completeText "Your order has been dispatched"

/-- Source `CheckoutCompletePage.verifyOrderDispatchMessage`: the body must
include both expected substrings. -/
def CheckoutCompletePage.verifyOrderDispatchMessage (completeText : String) : Bool :=
  jsIncludes completeText "Your order has been dispatched" &&
    jsIncludes completeText "will arrive just as fast as the pony can get there!"

/-- C4 counterexample: a completion body that contains the dispatch sentence
but not the pony sentence still makes `verifyCheckoutCompletion` return
true, so the composite check does not require both substrings. -/
theorem verifyCheckoutCompletion_cex :
    CheckoutCompletePage.verifyCheckoutCompletion "Thank you for your order!"
      "Your order has been dispatched" = true
    ∧ CheckoutCompletePage.verifyOrderDispatchMessage
      "Your order has been dispatched" = false := by
  constructor <;> decide

/-- C4 (amended): `verifyCheckoutCompletion` returns true iff the header is
exactly "Thank you for your order!" and the body contains "Your order has
been dispatched"; only `verifyOrderDispatchMessage` additionally requires
"will arrive just as fast as the pony can get there!". -/
theorem verifyCheckoutCompletion_spec :
    ∀ headerText completeText : String,
      (CheckoutCompletePage.verifyCheckoutCompletion headerText completeText = true
        ↔ headerText = "Thank you for your order!"
          ∧ containsSub completeText "Your order has been dispatched")
      ∧ (CheckoutCompletePage.verifyOrderDispatchMessage completeText = true
        ↔ containsSub completeText "Your order has been dispatched"
          ∧ containsSub completeText "will arrive just as fast as the pony can get there!") := by
  intro headerText completeText
  constructor
  · simp [CheckoutCompletePage.verifyCheckoutCompletion, jsIncludes_iff]
  · simp [CheckoutCompletePage.verifyOrderDispatchMessage, jsIncludes_iff]

/-! ## CartPage / CheckoutOverviewPage: order-insensitive item verification

`verifyCartItems` (and the identical `verifyOrderItems` on the overview
page) reads the trimmed `.inventory_item_name` texts into `actualItems`,
asserts `toContain` for every expected name, then asserts equal lengths.
We pass the observed list as an argument and render the two `expect`
assertions as one Bool that is true iff both pass. -/

/-- Source `CartPage.verifyCartItems`: every expected name occurs in the
observed list, and the lists have equal length. -/
def CartPage.verifyCartItems (expectedItems actualItems : List String) : Bool :=
  expectedItems.all (fun e => actualItems.contains e) &&
    actualItems.length == expectedItems.length

/-- Source `CheckoutOverviewPage.verifyOrderItems`: same checks as
`CartPage.verifyCartItems`, on the overview screen's observed names. -/
def CheckoutOverviewPage.verifyOrderItems (expectedItems actualItems : List String) : Bool :=
  expectedItems.all (fun e => actualItems.contains e) &&
    actualItems.length == expectedItems.length

lemma verifyItems_eq_iff (expectedItems actualItems : List String)
    (hnd : expectedItems.Nodup) :
    (expectedItems.all (fun e => actualItems.contains e) &&
        actualItems.length == expectedItems.length) = true
      ↔ List.Perm actualItems expectedItems := by
  simp only [Bool.and_eq_true, List.all_eq_true, List.contains, List.elem_iff, beq_iff_eq]
  constructor
  · rintro ⟨hsub, hlen⟩
    exact ((hnd.subperm (fun e he => hsub e he)).perm_of_length_le (le_of_eq hlen)).symm
  · intro p
    exact ⟨fun e he => p.mem_iff.mpr he, p.length_eq⟩

/-- C1: under pairwise-distinct expected names, the cart verification (and
likewise the checkout-overview verification) succeeds iff the observed
name list is a permutation of the expected name list. -/
theorem verifyCartItems_perm (expectedItems actualItems : List String)
    (hnd : expectedItems.Nodup) :
    (CartPage.verifyCartItems expectedItems actualItems = true
      ↔ List.Perm actualItems expectedItems)
    ∧ (CheckoutOverviewPage.verifyOrderItems expectedItems actualItems = true
      ↔ List.Perm actualItems expectedItems) :=
  ⟨verifyItems_eq_iff expectedItems actualItems hnd,
   verifyItems_eq_iff expectedItems actualItems hnd⟩

/-- C1 witness: at a concrete two-item cart shown in reversed order, the
verification passes and the lists are indeed permutations. -/
theorem verifyCartItems_perm_witness :
    List.Perm ["Sauce Labs Bike Light", "Sauce Labs Backpack"]
      ["Sauce Labs Backpack", "Sauce Labs Bike Light"] :=
  ((verifyCartItems_perm ["Sauce Labs Backpack", "Sauce Labs Bike Light"]
    ["Sauce Labs Bike Light", "Sauce Labs Backpack"] (by decide)).1).mp (by decide)

/-! ## InventoryPage: cart-badge count

`getCartItemCount` awaits `cartBadge.textContent()` inside `try`/`catch`:
the read can throw (badge never attached / page closed), resolve to `null`,
or resolve to a string.  The `catch` returns 0; otherwise
`badgeText ? parseInt(badgeText) : 0` returns 0 for `null`/empty text and
the `parseInt` value for non-empty text.  The result is a JS number, so the
embedding returns `Option Int` with `none` for NaN. -/

/-- Outcome of the `this.cartBadge.textContent()` read. -/
inductive BadgeRead where
  | throws
  | ok (text : Option String)

/-- Source `InventoryPage.getCartItemCount`. -/
def InventoryPage.getCartItemCount : BadgeRead → Option Int
  | BadgeRead.throws => some 0
  | BadgeRead.ok none => some 0
  | BadgeRead.ok (some t) => if t = "" then some 0 else jsParseInt t

/-- C3 counterexample: a badge whose text is the unparsable "abc" makes
`getCartItemCount` return NaN (`parseInt("abc")`), not 0. -/
theorem getCartItemCount_nan_cex :
    InventoryPage.getCartItemCount (BadgeRead.ok (some "abc")) = none
    ∧ InventoryPage.getCartItemCount (BadgeRead.ok (some "abc")) ≠ some 0 := by
  constructor <;> decide


lemma digit_not_whitespace {c : Char} (h : c.isDigit = true) : c.isWhitespace = false := by
  cases hw : c.isWhitespace with
  | false => rfl
  | true =>
    exfalso
    simp only [Char.isWhitespace, Bool.or_eq_true, decide_eq_true_eq] at hw
    rcases hw with ((rfl | rfl) | rfl) | rfl <;> exact absurd h (by decide)

lemma jsParseInt_digits (t : String) (hne : t.data ≠ [])
    (hd : ∀ c ∈ t.data, c.isDigit = true) :
    jsParseInt t = some (digitsToNat t.data : Int) := by
  obtain ⟨c, cs, hcons⟩ := List.exists_cons_of_ne_nil hne
  have hc : c.isDigit = true := hd c (by rw [hcons]; exact List.mem_cons_self c cs)
  have hdrop : t.data.dropWhile Char.isWhitespace = t.data := by
    rw [hcons]
    simp [List.dropWhile_cons, digit_not_whitespace hc]
  have hcm : c ≠ '-' := by rintro rfl; exact absurd hc (by decide)
  have hcp : c ≠ '+' := by rintro rfl; exact absurd hc (by decide)
  have hsign : jsSignSplit t.data = (1, t.data) := by
    rw [hcons]; simp [jsSignSplit, hcm, hcp]
  have htake : t.data.takeWhile Char.isDigit = t.data :=
    List.takeWhile_eq_self_iff.mpr (fun x hx => by simpa using hd x hx)
  simp only [jsParseInt]
  rw [hdrop, hsign, htake]
  rw [hcons]
  simp

/-- C3 (amended): `getCartItemCount` never raises (it is total on every
badge state) and returns 0 when the badge read throws or the text is null
or empty; for non-empty text it returns `parseInt` of the text — the parsed
count when the text is numeric, but NaN rather than 0 when the text has no
leading digits. -/
theorem getCartItemCount_spec :
    InventoryPage.getCartItemCount BadgeRead.throws = some 0
    ∧ InventoryPage.getCartItemCount (BadgeRead.ok none) = some 0
    ∧ InventoryPage.getCartItemCount (BadgeRead.ok (some "")) = some 0
    ∧ (∀ t : String, t ≠ "" →
        InventoryPage.getCartItemCount (BadgeRead.ok (some t)) = jsParseInt t)
    ∧ (∀ t : String, t ≠ "" → (∀ c ∈ t.data, c.isDigit = true) →
        InventoryPage.getCartItemCount (BadgeRead.ok (some t))
          = some (digitsToNat t.data : Int)) := by
  refine ⟨rfl, rfl, rfl, ?_, ?_⟩
  · intro t ht
    simp [InventoryPage.getCartItemCount, ht]
  · intro t ht hd
    have hne : t.data ≠ [] := by
      intro hdata
      exact ht (by cases t; simp_all)
    simp [InventoryPage.getCartItemCount, ht, jsParseInt_digits t hne hd]

/-! ## LoginPage / CheckoutPage: optional error banner

`getErrorMessage` awaits `errorMessage.waitFor({ timeout: 5000 })` inside
`try`/`catch`; the catch returns `null`.  We abstract the bounded wait as
an `Option`: `some txt` when the banner appeared within the wait (with
`txt` the banner's `textContent()`, itself a nullable string), `none` when
the wait timed out. -/

/-- Source `LoginPage.getErrorMessage`. -/
def LoginPage.getErrorMessage : Option (Option String) → Option String
  | some txt => txt
  | none => none

/-- Source `CheckoutPage.getErrorMessage` (identical body on the checkout
page's `[data-test="error"]` banner). -/
def CheckoutPage.getErrorMessage : Option (Option String) → Option String
  | some txt => txt
  | none => none

/-- C7: the optional-banner queries are total — for every banner state they
return an ordinary value: the banner's text when the banner appeared within
the bounded wait, and null (`none`) when it did not. -/
theorem getErrorMessage_spec :
    ∀ banner : Option (Option String),
      (∀ txt, banner = some txt →
        LoginPage.getErrorMessage banner = txt
        ∧ CheckoutPage.getErrorMessage banner = txt)
      ∧ (banner = none →
        LoginPage.getErrorMessage banner = none
        ∧ CheckoutPage.getErrorMessage banner = none) := by
  intro banner
  constructor
  · rintro txt rfl
    exact ⟨rfl, rfl⟩
  · rintro rfl
    exact ⟨rfl, rfl⟩

/-! ## InventoryPage: adding named items to the cart

`addItemsToCart` loops over the names; `switch (item.toLowerCase())` clicks
the matching product's add-to-cart control or throws
`Unknown item: ${item}`.  We embed the switch as `resolveItem` (the product
whose case label the lowercased name matches) and record the sequence of
add-to-cart clicks together with the thrown message, if any. -/

/-- The three products the `switch` of `addItemsToCart` can click (their
`addBackpackToCart` / `addBikeLightToCart` / `addBoltTShirtToCart`
controls). -/
inductive Product where
  | backpack
  | bikeLight
  | boltTShirt
deriving DecidableEq

/-- The `switch (item.toLowerCase())` of `InventoryPage.addItemsToCart`:
the product clicked for a recognized name, `none` for the default branch. -/
def InventoryPage.resolveItem (item : String) : Option Product :=
  if jsToLowerCase item = "sauce labs backpack" then some Product.backpack
  else if jsToLowerCase item = "sauce labs bike light" then some Product.bikeLight
  else if jsToLowerCase item = "sauce labs bolt t-shirt" then some Product.boltTShirt
  else none

/-- Source `InventoryPage.addItemsToCart`: the list of add-to-cart clicks
performed, in order, and the thrown error message (`none` when the loop
completes).  A throw stops the loop, so nothing after the first
unrecognized name is clicked. -/
def InventoryPage.addItemsToCart : List String → List Product × Option String
  | [] => ([], none)
  | item :: rest =>
    match InventoryPage.resolveItem item with
    | some p =>
      let r := InventoryPage.addItemsToCart rest
      (p :: r.1, r.2)
    | none => ([], some ("Unknown item: " ++ item))

lemma addItemsToCart_all_known (items : List String)
    (h : ∀ x ∈ items, (InventoryPage.resolveItem x).isSome = true) :
    InventoryPage.addItemsToCart items
      = (items.filterMap InventoryPage.resolveItem, none) := by
  induction items with
  | nil => rfl
  | cons x xs ih =>
    obtain ⟨p, hp⟩ := Option.isSome_iff_exists.mp (h x (List.mem_cons_self x xs))
    simp [InventoryPage.addItemsToCart, hp,
      ih (fun y hy => h y (List.mem_cons_of_mem x hy))]

lemma addItemsToCart_first_unknown (items : List String) :
    ∀ (i : Nat) (x : String), items.get? i = some x →
      InventoryPage.resolveItem x = none →
      (∀ (j : Nat) (y : String), j < i → items.get? j = some y →
        (InventoryPage.resolveItem y).isSome = true) →
      InventoryPage.addItemsToCart items
        = ((items.take i).filterMap InventoryPage.resolveItem,
           some ("Unknown item: " ++ x)) := by
  induction items with
  | nil => intro i x hi; simp at hi
  | cons a as ih =>
    intro i x hi hx hb
    cases i with
    | zero =>
      simp only [List.get?_cons_zero, Option.some.injEq] at hi
      subst hi
      simp [InventoryPage.addItemsToCart, hx]
    | succ i' =>
      have ha : (InventoryPage.resolveItem a).isSome = true :=
        hb 0 a (Nat.succ_pos i') rfl
      obtain ⟨p, hp⟩ := Option.isSome_iff_exists.mp ha
      have hrec := ih i' x hi hx
        (fun j y hj hy => hb (j + 1) y (Nat.succ_lt_succ hj) hy)
      simp [InventoryPage.addItemsToCart, hp, hrec, List.filterMap_cons]

/-- C6: `addItemsToCart` clicks each recognized name's control in list
order; when every name is recognized nothing is thrown, and on the first
unrecognized name it throws an error naming that item, having clicked
exactly the controls of the names before it and none after. -/
theorem addItemsToCart_spec :
    ∀ items : List String,
      ((∀ x ∈ items, (InventoryPage.resolveItem x).isSome = true) →
        InventoryPage.addItemsToCart items
          = (items.filterMap InventoryPage.resolveItem, none))
      ∧ (∀ (i : Nat) (x : String), items.get? i = some x →
          InventoryPage.resolveItem x = none →
          (∀ (j : Nat) (y : String), j < i → items.get? j = some y →
            (InventoryPage.resolveItem y).isSome = true) →
          InventoryPage.addItemsToCart items
            = ((items.take i).filterMap InventoryPage.resolveItem,
               some ("Unknown item: " ++ x))) :=
  fun items => ⟨addItemsToCart_all_known items, addItemsToCart_first_unknown items⟩

/-- C6 witness: a concrete run — the recognized first name is clicked, the
unrecognized second name is reported by name, the third is never reached. -/
theorem addItemsToCart_spec_witness :
    InventoryPage.addItemsToCart
        ["Sauce Labs Backpack", "Sauce Labs Onesie", "Sauce Labs Bike Light"]
      = ([Product.backpack], some "Unknown item: Sauce Labs Onesie") := by
  have h := (addItemsToCart_spec
    ["Sauce Labs Backpack", "Sauce Labs Onesie", "Sauce Labs Bike Light"]).2
    1 "Sauce Labs Onesie" rfl (by decide)
    (by
      intro j y hj hy
      interval_cases j
      · simp only [List.get?_cons_zero, Option.some.injEq] at hy
        subst hy
        decide)
  simpa using h

/-- C10: the item-name match of `addItemsToCart` is case-insensitive — any
casing variant of a known name clicks that product's control, and a name is
rejected as unknown exactly when its lowercased form matches none of the
three case labels. -/
theorem addItemsToCart_caseInsensitive :
    ∀ s : String,
      (jsToLowerCase s = "sauce labs backpack" →
        InventoryPage.addItemsToCart [s] = ([Product.backpack], none))
      ∧ (jsToLowerCase s = "sauce labs bike light" →
        InventoryPage.addItemsToCart [s] = ([Product.bikeLight], none))
      ∧ (jsToLowerCase s = "sauce labs bolt t-shirt" →
        InventoryPage.addItemsToCart [s] = ([Product.boltTShirt], none))
      ∧ (InventoryPage.resolveItem s = none
        ↔ jsToLowerCase s ∉
            (["sauce labs backpack", "sauce labs bike light",
              "sauce labs bolt t-shirt"] : List String)) := by
  intro s
  refine ⟨?_, ?_, ?_, ?_⟩
  · intro h; simp [InventoryPage.addItemsToCart, InventoryPage.resolveItem, h]
  · intro h; simp [InventoryPage.addItemsToCart, InventoryPage.resolveItem, h]
  · intro h; simp [InventoryPage.addItemsToCart, InventoryPage.resolveItem, h]
  · unfold InventoryPage.resolveItem
    split_ifs with h1 h2 h3 <;> simp_all

/-- C10 witness: an all-caps variant of a known name is accepted and clicks
the backpack control. -/
theorem addItemsToCart_caseInsensitive_witness :
    InventoryPage.addItemsToCart ["SAUCE LABS BACKPACK"] = ([Product.backpack], none) :=
  (addItemsToCart_caseInsensitive "SAUCE LABS BACKPACK").1 (by decide)

/-! ## CartPage: removing a named item

`removeItemFromCart` iterates over the `.cart_item` elements, reads each
item's `.inventory_item_name` text (`textContent` is nullable), and on the
first item whose trimmed name strictly equals the argument clicks that
item's remove button and breaks.  We pass the cart as the list of the
items' name texts and return the index of the item whose remove button was
clicked (`none` = no click, so the cart is left unchanged). -/

/-- The loop's guard `name?.trim() === itemName`: false for a null name. -/
def CartPage.nameMatches (itemName : String) : Option String → Bool
  | some s => jsTrim s == itemName
  | none => false

/-- Source `CartPage.removeItemFromCart`: index of the single clicked
remove button, `none` when no item matches (the loop `break`s after the
first click). -/
def CartPage.removeItemFromCart (itemName : String) : List (Option String) → Option Nat
  | [] => none
  | name :: rest =>
    match CartPage.nameMatches itemName name with
    | true => some 0
    | false => (CartPage.removeItemFromCart itemName rest).map (· + 1)

lemma removeItemFromCart_eq_none (itemName : String) (items : List (Option String))
    (h : ∀ name ∈ items, CartPage.nameMatches itemName name = false) :
    CartPage.removeItemFromCart itemName items = none := by
  induction items with
  | nil => rfl
  | cons a as ih =>
    simp [CartPage.removeItemFromCart, h a (List.mem_cons_self a as),
      ih (fun y hy => h y (List.mem_cons_of_mem a hy))]

lemma removeItemFromCart_none_forall (itemName : String) :
    ∀ items : List (Option String),
      CartPage.removeItemFromCart itemName items = none →
      ∀ name ∈ items, CartPage.nameMatches itemName name = false := by
  intro items
  induction items with
  | nil => intro _ name hmem; exact absurd hmem (List.not_mem_nil name)
  | cons a as ih =>
    intro h name hmem
    cases ha : CartPage.nameMatches itemName a with
    | true => simp [CartPage.removeItemFromCart, ha] at h
    | false =>
      rcases List.mem_cons.mp hmem with rfl | hmem'
      · exact ha
      · refine ih ?_ name hmem'
        simpa [CartPage.removeItemFromCart, ha, Option.map_eq_none'] using h

lemma removeItemFromCart_eq_some_iff (itemName : String) :
    ∀ (items : List (Option String)) (i : Nat),
      CartPage.removeItemFromCart itemName items = some i
        ↔ (∃ name, items.get? i = some name
              ∧ CartPage.nameMatches itemName name = true)
          ∧ (∀ (j : Nat) (name : Option String), j < i → items.get? j = some name →
              CartPage.nameMatches itemName name = false) := by
  intro items
  induction items with
  | nil => intro i; simp [CartPage.removeItemFromCart]
  | cons a as ih =>
    intro i
    cases ha : CartPage.nameMatches itemName a with
    | true =>
      simp only [CartPage.removeItemFromCart, ha]
      constructor
      · intro h
        obtain rfl : i = 0 := (Option.some.inj h).symm
        exact ⟨⟨a, rfl, ha⟩, fun j name hj _ => absurd hj (Nat.not_lt_zero j)⟩
      · rintro ⟨⟨name, hget, hmatch⟩, hfirst⟩
        cases i with
        | zero => rfl
        | succ i' =>
          have h0 := hfirst 0 a (Nat.succ_pos i') rfl
          rw [ha] at h0
          exact absurd h0 (by simp)
    | false =>
      simp only [CartPage.removeItemFromCart, ha]
      constructor
      · intro h
        obtain ⟨i', hi', hsucc⟩ := Option.map_eq_some'.mp h
        subst hsucc
        obtain ⟨⟨name, hget, hmatch⟩, hfirst⟩ := (ih i').mp hi'
        refine ⟨⟨name, by simpa using hget, hmatch⟩, ?_⟩
        intro j nm hj hget'
        cases j with
        | zero =>
          simp only [List.get?_cons_zero, Option.some.injEq] at hget'
          subst hget'
          exact ha
        | succ j' => exact hfirst j' nm (by omega) (by simpa using hget')
      · rintro ⟨⟨name, hget, hmatch⟩, hfirst⟩
        cases i with
        | zero =>
          simp only [List.get?_cons_zero, Option.some.injEq] at hget
          subst hget
          rw [ha] at hmatch
          exact absurd hmatch (by simp)
        | succ i' =>
          refine Option.map_eq_some'.mpr ⟨i', ?_, rfl⟩
          refine (ih i').mpr ⟨⟨name, by simpa using hget, hmatch⟩, ?_⟩
          intro j nm hj hget'
          exact hfirst (j + 1) nm (by omega) (by simpa using hget')

/-- C9: `removeItemFromCart` is a no-op when no displayed item's trimmed
name equals the given name (no remove button is clicked, the cart is
unchanged); when some item matches, it clicks the remove button of exactly
the first matching item and no other. -/
theorem removeItemFromCart_spec :
    ∀ (itemName : String) (items : List (Option String)),
      ((∀ name ∈ items, CartPage.nameMatches itemName name = false) →
        CartPage.removeItemFromCart itemName items = none)
      ∧ ((∃ name ∈ items, CartPage.nameMatches itemName name = true) →
        (CartPage.removeItemFromCart itemName items).isSome = true)
      ∧ (∀ i : Nat,
          CartPage.removeItemFromCart itemName items = some i
            ↔ (∃ name, items.get? i = some name
                  ∧ CartPage.nameMatches itemName name = true)
              ∧ (∀ (j : Nat) (name : Option String), j < i →
                  items.get? j = some name →
                  CartPage.nameMatches itemName name = false)) := by
  intro itemName items
  refine ⟨removeItemFromCart_eq_none itemName items, ?_,
    removeItemFromCart_eq_some_iff itemName items⟩
  rintro ⟨name, hmem, hmatch⟩
  cases hr : CartPage.removeItemFromCart itemName items with
  | some i => rfl
  | none =>
    have := removeItemFromCart_none_forall itemName items hr name hmem
    rw [hmatch] at this
    exact absurd this (by simp)

/-- C9 witness: in a cart showing a null-named item, a non-matching item
and two matching items, exactly the first matching item's remove button
(index 2) is clicked. -/
theorem removeItemFromCart_spec_witness :
    CartPage.removeItemFromCart "Sauce Labs Backpack"
      [none, some "Sauce Labs Bike Light", some " Sauce Labs Backpack ",
       some "Sauce Labs Backpack"] = some 2 := by
  refine ((removeItemFromCart_spec "Sauce Labs Backpack"
    [none, some "Sauce Labs Bike Light", some " Sauce Labs Backpack ",
     some "Sauce Labs Backpack"]).2.2 2).mpr
    ⟨⟨some " Sauce Labs Backpack ", rfl, by decide⟩, ?_⟩
  intro j name hj hget
  interval_cases j
  · simp only [List.get?_cons_zero, Option.some.injEq] at hget
    subst hget
    decide
  · simp only [List.get?_cons_succ, List.get?_cons_zero, Option.some.injEq] at hget
    subst hget
    decide

/-! ## LoginPage / CheckoutPage: combined form operations

The fill methods each `clear()` the input then `fill(value)`; the combined
`login(u, p)` and `fillCheckoutInformation(f, l, c)` call the individual
methods in sequence.  We model the page state as the input values plus the
ordered log of primitive browser commands issued. -/

/-- A primitive browser command issued by a page-object method. -/
inductive BrowserAction where
  | clear (field : String)
  | fill (field : String) (value : String)
  | click (button : String)
deriving DecidableEq

/-- Login screen state: the two input values and the command log. -/
structure LoginFormState where
  username : String
  password : String
  log : List BrowserAction
deriving DecidableEq

/-- Source `LoginPage.fillUsername`: clear then fill the username input. -/
def LoginPage.fillUsername (u : String) (s : LoginFormState) : LoginFormState :=
  { s with username := u,
           log := s.log ++ [BrowserAction.clear "username", BrowserAction.fill "username" u] }

/-- Source `LoginPage.fillPassword`: clear then fill the password input. -/
def LoginPage.fillPassword (p : String) (s : LoginFormState) : LoginFormState :=
  { s with password := p,
           log := s.log ++ [BrowserAction.clear "password", BrowserAction.fill "password" p] }

/-- Source `LoginPage.clickLogin`: click the login button. -/
def LoginPage.clickLogin (s : LoginFormState) : LoginFormState :=
  { s with log := s.log ++ [BrowserAction.click "login-button"] }

/-- Source `LoginPage.login`: fillUsername, then fillPassword, then
clickLogin. -/
def LoginPage.login (u p : String) (s : LoginFormState) : LoginFormState :=
  LoginPage.clickLogin (LoginPage.fillPassword p (LoginPage.fillUsername u s))

/-- Checkout information screen state: the three input values and the
command log. -/
structure CheckoutFormState where
  firstName : String
  lastName : String
  postalCode : String
  log : List BrowserAction
deriving DecidableEq

/-- Source `CheckoutPage.fillFirstName`: clear then fill the first-name
input. -/
def CheckoutPage.fillFirstName (f : String) (s : CheckoutFormState) : CheckoutFormState :=
  { s with firstName := f,
           log := s.log ++ [BrowserAction.clear "firstName", BrowserAction.fill "firstName" f] }

/-- Source `CheckoutPage.fillLastName`: clear then fill the last-name
input. -/
def CheckoutPage.fillLastName (l : String) (s : CheckoutFormState) : CheckoutFormState :=
  { s with lastName := l,
           log := s.log ++ [BrowserAction.clear "lastName", BrowserAction.fill "lastName" l] }

/-- Source `CheckoutPage.fillPostalCode`: clear then fill the postal-code
input. -/
def CheckoutPage.fillPostalCode (c : String) (s : CheckoutFormState) : CheckoutFormState :=
  { s with postalCode := c,
           log := s.log ++ [BrowserAction.clear "postalCode", BrowserAction.fill "postalCode" c] }

/-- Source `CheckoutPage.fillCheckoutInformation`: fillFirstName, then
fillLastName, then fillPostalCode. -/
def CheckoutPage.fillCheckoutInformation (f l c : String) (s : CheckoutFormState) :
    CheckoutFormState :=
  CheckoutPage.fillPostalCode c (CheckoutPage.fillLastName l (CheckoutPage.fillFirstName f s))

/-- C8: the combined operations equal the sequence of their individual
steps, and from any starting state they leave the form inputs holding the
given values with exactly the five (respectively six) primitive commands
appended to the log in order. -/
theorem combinedForms_spec :
    ∀ (u p : String) (s : LoginFormState) (f l c : String) (s' : CheckoutFormState),
      LoginPage.login u p s
          = LoginPage.clickLogin (LoginPage.fillPassword p (LoginPage.fillUsername u s))
      ∧ LoginPage.login u p s
          = { username := u, password := p,
              log := s.log ++ [BrowserAction.clear "username",
                BrowserAction.fill "username" u, BrowserAction.clear "password",
                BrowserAction.fill "password" p, BrowserAction.click "login-button"] }
      ∧ CheckoutPage.fillCheckoutInformation f l c s'
          = CheckoutPage.fillPostalCode c
              (CheckoutPage.fillLastName l (CheckoutPage.fillFirstName f s'))
      ∧ CheckoutPage.fillCheckoutInformation f l c s'
          = { firstName := f, lastName := l, postalCode := c,
              log := s'.log ++ [BrowserAction.clear "firstName",
                BrowserAction.fill "firstName" f, BrowserAction.clear "lastName",
                BrowserAction.fill "lastName" l, BrowserAction.clear "postalCode",
                BrowserAction.fill "postalCode" c] } := by
  intro u p s f l c s'
  refine ⟨rfl, ?_, rfl, ?_⟩
  · simp [LoginPage.login, LoginPage.clickLogin, LoginPage.fillPassword,
      LoginPage.fillUsername]
  · simp [CheckoutPage.fillCheckoutInformation, CheckoutPage.fillPostalCode,
      CheckoutPage.fillLastName, CheckoutPage.fillFirstName]

/-! ## TestHelpers.retryWithBackoff

The helper runs the wrapped action up to `maxRetries + 1` times: attempt
`k` failing (for `k < maxRetries`) is followed by a `baseDelay * 2^k`
millisecond sleep and a retry; a success returns immediately; the failure
of attempt `maxRetries` is rethrown.  We embed the wrapped async action as
the outcome of each invocation (`fn k` = result of the `k`-th call) and
return the final result together with the number of invocations and the
chronological list of sleeps taken. -/

/-- Observable trace of one `retryWithBackoff` run: the returned or thrown
result, how many times the action was invoked, and the sleeps (in ms)
taken between invocations, in order. -/
structure RetryTrace (ε α : Type) where
  result : Except ε α
  calls : Nat
  delays : List Nat

/-- The loop of `TestHelpers.retryWithBackoff`, from attempt number
`attempt` with `remaining` retries left (`remaining = maxRetries -
attempt` throughout the source loop). -/
def TestHelpers.retryGo (fn : Nat → Except ε α) (baseDelay : Nat) :
    Nat → Nat → RetryTrace ε α
  | attempt, remaining =>
    match fn attempt, remaining with
    | Except.ok v, _ => ⟨Except.ok v, 1, []⟩
    | Except.error e, 0 => ⟨Except.error e, 1, []⟩
    | Except.error _, r + 1 =>
      let t := TestHelpers.retryGo fn baseDelay (attempt + 1) r
      ⟨t.result, t.calls + 1, baseDelay * 2 ^ attempt :: t.delays⟩

/-- Source `TestHelpers.retryWithBackoff`: the loop starting at attempt 0
with `maxRetries` retries available. -/
def TestHelpers.retryWithBackoff (fn : Nat → Except ε α) (maxRetries baseDelay : Nat) :
    RetryTrace ε α :=
  TestHelpers.retryGo fn baseDelay 0 maxRetries

lemma retryGo_ok {ε α : Type} {fn : Nat → Except ε α} {v : α} {a : Nat}
    (h : fn a = Except.ok v) (d r : Nat) :
    TestHelpers.retryGo fn d a r = ⟨Except.ok v, 1, []⟩ := by
  cases r <;> (rw [TestHelpers.retryGo.eq_def]; dsimp only; rw [h])

lemma retryGo_err_zero {ε α : Type} {fn : Nat → Except ε α} {e : ε} {a : Nat}
    (h : fn a = Except.error e) (d : Nat) :
    TestHelpers.retryGo fn d a 0 = ⟨Except.error e, 1, []⟩ := by
  rw [TestHelpers.retryGo.eq_def]
  dsimp only
  rw [h]

lemma retryGo_err_succ {ε α : Type} {fn : Nat → Except ε α} {e : ε} {a : Nat}
    (h : fn a = Except.error e) (d r : Nat) :
    TestHelpers.retryGo fn d a (r + 1)
      = ⟨(TestHelpers.retryGo fn d (a + 1) r).result,
         (TestHelpers.retryGo fn d (a + 1) r).calls + 1,
         d * 2 ^ a :: (TestHelpers.retryGo fn d (a + 1) r).delays⟩ := by
  rw [TestHelpers.retryGo.eq_def]
  dsimp only
  rw [h]

lemma retryGo_calls_pos {ε α : Type} (fn : Nat → Except ε α) (d : Nat) :
    ∀ (r a : Nat), 1 ≤ (TestHelpers.retryGo fn d a r).calls := by
  intro r
  induction r with
  | zero =>
    intro a
    cases hfa : fn a with
    | ok v => rw [retryGo_ok hfa]
    | error e => rw [retryGo_err_zero hfa]
  | succ r' ih =>
    intro a
    cases hfa : fn a with
    | ok v => rw [retryGo_ok hfa]
    | error e =>
      rw [retryGo_err_succ hfa]
      exact Nat.le_add_left 1 _

lemma retryGo_calls_le {ε α : Type} (fn : Nat → Except ε α) (d : Nat) :
    ∀ (r a : Nat), (TestHelpers.retryGo fn d a r).calls ≤ r + 1 := by
  intro r
  induction r with
  | zero =>
    intro a
    cases hfa : fn a with
    | ok v => rw [retryGo_ok hfa]
    | error e => rw [retryGo_err_zero hfa]
  | succ r' ih =>
    intro a
    cases hfa : fn a with
    | ok v => rw [retryGo_ok hfa]; dsimp only; omega
    | error e =>
      rw [retryGo_err_succ hfa]
      have := ih (a + 1)
      dsimp only
      omega

lemma retryGo_delays {ε α : Type} (fn : Nat → Except ε α) (d : Nat) :
    ∀ (r a : Nat),
      (TestHelpers.retryGo fn d a r).delays
        = (List.range ((TestHelpers.retryGo fn d a r).calls - 1)).map
            (fun k => d * 2 ^ (a + k)) := by
  intro r
  induction r with
  | zero =>
    intro a
    cases hfa : fn a with
    | ok v => rw [retryGo_ok hfa]; rfl
    | error e => rw [retryGo_err_zero hfa]; rfl
  | succ r' ih =>
    intro a
    cases hfa : fn a with
    | ok v => rw [retryGo_ok hfa]; rfl
    | error e =>
      rw [retryGo_err_succ hfa]
      dsimp only
      have hpos := retryGo_calls_pos fn d r' (a + 1)
      rw [Nat.add_sub_cancel]
      rw [show (TestHelpers.retryGo fn d (a + 1) r').calls
            = ((TestHelpers.retryGo fn d (a + 1) r').calls - 1) + 1 by omega]
      rw [List.range_succ_eq_map, List.map_cons, List.map_map]
      rw [ih (a + 1)]
      refine congrArg₂ List.cons (by simp) ?_
      refine List.map_congr_left ?_
      intro k _
      have : a + 1 + k = a + (k + 1) := by omega
      simp [Function.comp, this]

lemma retryGo_success {ε α : Type} (fn : Nat → Except ε α) (d : Nat) :
    ∀ (r a j : Nat) (v : α),
      (∀ k, a ≤ k → k < j → ∃ e, fn k = Except.error e) →
      fn j = Except.ok v → a ≤ j → j ≤ a + r →
      (TestHelpers.retryGo fn d a r).result = Except.ok v
      ∧ (TestHelpers.retryGo fn d a r).calls = j - a + 1 := by
  intro r
  induction r with
  | zero =>
    intro a j v hfail hok haj hja
    obtain rfl : j = a := by omega
    rw [retryGo_ok hok]
    exact ⟨rfl, by simp⟩
  | succ r' ih =>
    intro a j v hfail hok haj hja
    rcases Nat.eq_or_lt_of_le haj with rfl | hlt
    · rw [retryGo_ok hok]
      exact ⟨rfl, by simp⟩
    · obtain ⟨e, he⟩ := hfail a (le_refl a) hlt
      rw [retryGo_err_succ he]
      have hrec := ih (a + 1) j v (fun k hk1 hk2 => hfail k (by omega) hk2) hok
        (by omega) (by omega)
      dsimp only
      exact ⟨hrec.1, by rw [hrec.2]; omega⟩

lemma retryGo_exhaust {ε α : Type} (fn : Nat → Except ε α) (d : Nat) :
    ∀ (r a : Nat),
      (∀ k, a ≤ k → k ≤ a + r → ∃ e, fn k = Except.error e) →
      ∀ e, fn (a + r) = Except.error e →
      (TestHelpers.retryGo fn d a r).result = Except.error e
      ∧ (TestHelpers.retryGo fn d a r).calls = r + 1 := by
  intro r
  induction r with
  | zero =>
    intro a hall e he
    have he' : fn a = Except.error e := by simpa using he
    rw [retryGo_err_zero he']
    exact ⟨rfl, rfl⟩
  | succ r' ih =>
    intro a hall e he
    obtain ⟨e0, he0⟩ := hall a (le_refl a) (by omega)
    rw [retryGo_err_succ he0]
    have hrec := ih (a + 1) (fun k hk1 hk2 => hall k (by omega) (by omega)) e
      (by rw [show a + 1 + r' = a + (r' + 1) by omega]; exact he)
    dsimp only
    exact ⟨hrec.1, by rw [hrec.2]⟩

/-- C2: `retryWithBackoff` invokes the wrapped action at most
`maxRetries + 1` times; the sleeps taken are exactly `baseDelay * 2^k` for
`k = 0, 1, …` (one after each failed, non-final attempt, so the delay
doubles each attempt); the first successful attempt's value is returned
immediately after that attempt; and when every attempt fails, the error of
the last attempt is rethrown after exactly `maxRetries + 1` invocations. -/
theorem retryWithBackoff_spec :
    ∀ (ε α : Type) (fn : Nat → Except ε α) (m d : Nat),
      (TestHelpers.retryWithBackoff fn m d).calls ≤ m + 1
      ∧ (TestHelpers.retryWithBackoff fn m d).delays
          = (List.range ((TestHelpers.retryWithBackoff fn m d).calls - 1)).map
              (fun k => d * 2 ^ k)
      ∧ (∀ (j : Nat) (v : α), (∀ k, k < j → ∃ e, fn k = Except.error e) →
          fn j = Except.ok v → j ≤ m →
          (TestHelpers.retryWithBackoff fn m d).result = Except.ok v
          ∧ (TestHelpers.retryWithBackoff fn m d).calls = j + 1)
      ∧ ((∀ k, k ≤ m → ∃ e, fn k = Except.error e) →
          ∀ e, fn m = Except.error e →
          (TestHelpers.retryWithBackoff fn m d).result = Except.error e
          ∧ (TestHelpers.retryWithBackoff fn m d).calls = m + 1) := by
  intro ε α fn m d
  refine ⟨retryGo_calls_le fn d m 0, ?_, ?_, ?_⟩
  · have h := retryGo_delays fn d m 0
    simpa using h
  · intro j v hfail hok hj
    have h := retryGo_success fn d m 0 j v (fun k _ hk => hfail k hk) hok
      (Nat.zero_le j) (by omega)
    simpa using h
  · intro hall e he
    have h := retryGo_exhaust fn d m 0 (fun k _ hk => hall k (by omega)) e
      (by simpa using he)
    exact h

/-- C2 witness: an action failing on its first two attempts and succeeding
on the third returns that success after exactly 3 invocations. -/
theorem retryWithBackoff_spec_witness :
    (TestHelpers.retryWithBackoff
        (fun k => if k < 2 then Except.error "transient" else Except.ok 42) 3 5).result
      = Except.ok 42
    ∧ (TestHelpers.retryWithBackoff
        (fun k => if k < 2 then Except.error "transient" else Except.ok 42) 3 5).calls
      = 3 :=
  (retryWithBackoff_spec String Nat
    (fun k => if k < 2 then Except.error "transient" else Except.ok 42) 3 5).2.2.1 2 42
    (fun k hk => ⟨"transient", by simp [hk]⟩) (by norm_num) (by norm_num)

/-! ## CheckoutOverviewPage: total calculation

`calculateTotalFromItems` reads the displayed `.inventory_item_price`
texts, parses each with `parseFloat(price.replace('$', ''))` (JS `replace`
with a string pattern removes only the first occurrence) and sums them;
`verifyTotalCalculation` parses the displayed total with
`parseFloat(displayedTotal.replace(/[^0-9.]/g, ''))` and asserts
`Math.abs(calculatedTotal - totalAmount) < 0.01`.  Sums and comparisons
follow JS NaN propagation (`none`). -/

/-- Source `CheckoutOverviewPage.calculateTotalFromItems` on the displayed
price strings. -/
def CheckoutOverviewPage.calculateTotalFromItems (prices : List String) : Option ℚ :=
  prices.foldl
    (fun total price => jsAdd total (jsParseFloat ⟨removeFirstChar '$' price.data⟩))
    (some 0)

/-- Source `CheckoutOverviewPage.verifyTotalCalculation` as the Bool the
`toBeLessThan(0.01)` assertion checks. -/
def CheckoutOverviewPage.verifyTotalCalculation (prices : List String)
    (displayedTotal : String) : Bool :=
  jsLtNum (jsAbs (jsSub (CheckoutOverviewPage.calculateTotalFromItems prices)
    (jsParseFloat (keepDigitsAndDot displayedTotal)))) (1 / 100)

/-- The claim's reading of the per-item price parsing: strip a `'$'`
PREFIX (a leading dollar sign only) before `parseFloat` — to be compared
with the source's `replace('$', '')`, which removes the first `'$'`
anywhere in the string. -/
def specStripLeadingDollar (s : String) : String :=
  match s.data with
  | '$' :: rest => ⟨rest⟩
  | _ => s

/-- Sum of the per-item prices parsed as the claim words it (strip the
`'$'` prefix, then parse). -/
def specSumPricesLeadingDollar (prices : List String) : Option ℚ :=
  prices.foldl
    (fun total price => jsAdd total (jsParseFloat (specStripLeadingDollar price)))
    (some 0)

/-- C5 counterexample: for the price string "5$5" the code removes the
first `'$'` anywhere and parses 55, while parsing after stripping a `'$'`
prefix yields 5; with displayed total "Total: $55.00" the check passes even
though the claim's sum differs from the displayed total by 50. -/
theorem verifyTotalCalculation_cex :
    CheckoutOverviewPage.verifyTotalCalculation ["5$5"] "Total: $55.00" = true
    ∧ specSumPricesLeadingDollar ["5$5"] = some 5
    ∧ jsParseFloat (keepDigitsAndDot "Total: $55.00") = some 55
    ∧ ¬ (|(5 : ℚ) - 55| < 1 / 100) := by
  refine ⟨by with_unfolding_all decide, by with_unfolding_all decide,
    by with_unfolding_all decide, by norm_num⟩

/-- C5 (amended): `verifyTotalCalculation` passes iff the absolute
difference between the sum of the per-item prices (each parsed after
removing the first `'$'` occurrence, per `replace('$','')`) and the
numeric value parsed from the displayed total is strictly less than 0.01;
a NaN on either side fails the check. -/
theorem verifyTotalCalculation_spec :
    ∀ (prices : List String) (displayedTotal : String),
      CheckoutOverviewPage.verifyTotalCalculation prices displayedTotal = true
        ↔ ∃ s t : ℚ,
            CheckoutOverviewPage.calculateTotalFromItems prices = some s
            ∧ jsParseFloat (keepDigitsAndDot displayedTotal) = some t
            ∧ |s - t| < 1 / 100 := by
  intro prices displayedTotal
  unfold CheckoutOverviewPage.verifyTotalCalculation
  cases hA : CheckoutOverviewPage.calculateTotalFromItems prices with
  | none => simp [jsSub, jsAbs, jsLtNum]
  | some s =>
    cases hB : jsParseFloat (keepDigitsAndDot displayedTotal) with
    | none => simp [jsSub, jsAbs, jsLtNum]
    | some t => simp [jsSub, jsAbs, jsLtNum]
